import Mathlib

/-!
go-serverless-aws-lambda-dynamodb: dispatcher and record service

A shallow embedding of `cmd/main.go`, `pkg/handlers/handlers.go` and
`pkg/user/user.go`.

* Go functions that talk to DynamoDB become state-passing functions over a
  `Client`: they return their Go result together with the client afterwards.
* A Go `(value, error)` pair becomes `Except String value`; the string is the
  text the source hands to `errors.New`.
* The DynamoDB client is an external collaborator. It is modelled as a keyed
  table with a schedule of call outcomes, so that any single call can fail,
  and with a log of the calls that were issued.
* `validators.IsEmailValid` and `encoding/json.Unmarshal` are not part of the
  three source files; they are taken as parameters (`Deps`).
-/

namespace GoServerless

/-! ## Data model -/

/-- The struct `user.User` with its three string fields. -/
structure User where
  Email : String
  FirstName : String
  LastName : String
deriving DecidableEq, Repr

/-- The fragment of `dynamodb.AttributeValue` that a `User` is stored in: a
string (`S`) or the null marker (`NULL: true`). Attribute values of the other
DynamoDB types (`BOOL`, `L`, `M`, ...) are not part of the model; a table that
holds one is outside of what the theorems below speak about. -/
inductive AttributeValue where
  | S (s : String)
  | NULL
deriving DecidableEq, Repr

/-- A stored item, `map[string]*dynamodb.AttributeValue`, as an association list. -/
abbrev Item := List (String × AttributeValue)

/-- Encoding of one string field by `dynamodbattribute` with its default
options: the empty string is written as `NULL`, any other string as `S`. -/
def encodeString (s : String) : AttributeValue :=
  if s = "" then AttributeValue.NULL else AttributeValue.S s

/-- Decoding of one string field by `dynamodbattribute`: a missing attribute
leaves the zero value, `NULL` sets the zero value, `S s` sets `s`. -/
def decodeString : Option AttributeValue → String
  | some (AttributeValue.S s) => s
  | some AttributeValue.NULL => ""
  | none => ""

/-- The attribute map written for a `User`, under the names of its `json` tags. -/
def encodeUser (u : User) : Item :=
  [("email", encodeString u.Email),
   ("firstname", encodeString u.FirstName),
   ("lastname", encodeString u.LastName)]

/-- The `User` read from an attribute map, starting from the zero value. The
model reads the three attributes under the exact names of the `json` tags and
skips every other attribute. The library also accepts a name that differs from
a tag in case only; that fallback is not modelled, so this is the library's
decoding on items whose attributes are spelled as `encodeUser` spells them. -/
def decodeUser (m : Item) : User :=
  { Email := decodeString (m.lookup "email"),
    FirstName := decodeString (m.lookup "firstname"),
    LastName := decodeString (m.lookup "lastname") }

/-- The call `dynamodbattribute.MarshalMap(user)`; for a struct of strings it
returns no error. -/
def MarshalMap (u : User) : Except String Item :=
  Except.ok (encodeUser u)

/-- The call `dynamodbattribute.UnmarshalMap(item, out)` with `out` a fresh
`User`; on the attribute values of this model it returns no error. -/
def UnmarshalMap (m : Item) : Except String User :=
  Except.ok (decodeUser m)

/-- The call `dynamodbattribute.UnmarshalListOfMaps(items, out)` with `out` a
fresh `[]User`: the slice that was filled, and the error if any. On the
attribute values of this model every item decodes, so the error is absent and
the slice is complete. On an item with an attribute that does not decode into
a string the library returns an error and a partly filled slice; that case is
outside the model. -/
def UnmarshalListOfMaps (items : List Item) : List User × Option String :=
  (items.map decodeUser, none)

/-! ## The store client -/

/-- A request sent to the store. -/
inductive Call where
  | GetItem (tablename key : String)
  | Scan (tablename : String)
  | PutItem (tablename : String) (item : Item)
  | DeleteItem (tablename key : String)
deriving DecidableEq, Repr

/-- The store behind `dynamodbiface.DynamoDBAPI`: the items of the table, the
outcomes scheduled for the coming calls (`true`: that call fails; an
exhausted schedule means no failure), and the calls issued so far. -/
structure Client where
  table : List Item
  faults : List Bool
  log : List Call
deriving DecidableEq, Repr

/-- The primary key of an item: the string held by its `email` attribute. -/
def keyOf (it : Item) : Option String :=
  match it.lookup "email" with
  | some (AttributeValue.S k) => some k
  | _ => none

namespace Client

/-- Whether the next call is scheduled to fail. -/
def nextFails (c : Client) : Bool :=
  match c.faults with
  | [] => false
  | b :: _ => b

/-- The client after one call was issued: its outcome is consumed and the call is logged. -/
def tick (c : Client) (call : Call) : Client :=
  { c with faults := c.faults.tail, log := c.log ++ [call] }

/-- No scheduled call fails. -/
def Healthy (c : Client) : Prop :=
  ∀ b ∈ c.faults, b = false

instance instDecidableHealthy (c : Client) : Decidable c.Healthy :=
  inferInstanceAs (Decidable (∀ b ∈ c.faults, b = false))

/-- The store's get: the item under the key, or the empty item when there is none. -/
def GetItem (c : Client) (tablename key : String) : Except String Item × Client :=
  let c1 := c.tick (Call.GetItem tablename key)
  if c.nextFails then (Except.error "GetItem failed", c1)
  else (Except.ok ((c.table.find? (fun it => decide (keyOf it = some key))).getD []), c1)

/-- The store's scan: every item of the table. -/
def Scan (c : Client) (tablename : String) : Except String (List Item) × Client :=
  let c1 := c.tick (Call.Scan tablename)
  if c.nextFails then (Except.error "Scan failed", c1)
  else (Except.ok c.table, c1)

/-- The store's put (upsert): the item replaces whatever is held under its key.
An item without a non-empty string key cannot be keyed and is refused. -/
def PutItem (c : Client) (tablename : String) (item : Item) : Except String Unit × Client :=
  let c1 := c.tick (Call.PutItem tablename item)
  if c.nextFails then (Except.error "PutItem failed", c1)
  else
    match keyOf item with
    | none => (Except.error "PutItem refused: no key", c1)
    | some k =>
      if k = "" then (Except.error "PutItem refused: empty key", c1)
      else
        (Except.ok (),
          { c1 with table := c.table.filter (fun it => decide (keyOf it ≠ some k)) ++ [item] })

/-- The store's delete: whatever is held under the key is removed. -/
def DeleteItem (c : Client) (tablename key : String) : Except String Unit × Client :=
  let c1 := c.tick (Call.DeleteItem tablename key)
  if c.nextFails then (Except.error "DeleteItem failed", c1)
  else (Except.ok (), { c1 with table := c.table.filter (fun it => decide (keyOf it ≠ some key)) })

end Client


/-! ## Requests, responses and the code outside the three source files -/

/-- The fields of `events.APIGatewayProxyRequest` that the program reads. -/
structure APIGatewayProxyRequest where
  HTTPMethod : String
  QueryStringParameters : List (String × String)
  Body : String
deriving DecidableEq, Repr

/-- A JSON document of one of the shapes the program answers with: a string,
an object of string fields, or an array of such objects. -/
inductive Json where
  | str (s : String)
  | obj (fields : List (String × String))
  | arr (elems : List (List (String × String)))
deriving DecidableEq, Repr

/-- The fields of `events.APIGatewayProxyResponse` that the program sets; the
body is kept as the JSON document whose text the response carries. -/
structure APIGatewayProxyResponse where
  StatusCode : Nat
  Body : Json
deriving DecidableEq, Repr

/-- Go's `m[key]` on a `map[string]string`: the zero value when the key is absent. -/
def queryParam (q : List (String × String)) (key : String) : String :=
  (q.lookup key).getD ""

/-- Code the source files call but do not contain. -/
structure Deps where
  /-- The function `validators.IsEmailValid`. -/
  IsEmailValid : String → Bool
  /-- The call `json.Unmarshal([]byte(body), &user)` on a fresh `User`; `none` is a non-nil error. -/
  jsonUnmarshal : String → Option User

/-- The key schema of the table: no item is stored under the empty string.
DynamoDB does not accept an empty string as a key value, and `PutItem` above
refuses it, so no operation leads out of the tables described here. -/
def Keyed (t : List Item) : Prop :=
  ∀ it ∈ t, keyOf it ≠ some ""

instance instDecidableKeyed (t : List Item) : Decidable (Keyed t) :=
  inferInstanceAs (Decidable (∀ it ∈ t, keyOf it ≠ some ""))

/-- The record invariant of the specification, section 3, on the table: the
record in every item has a non-empty email that passes the validity check and
is the key the item is stored under. -/
def RecordInvariant (deps : Deps) (t : List Item) : Prop :=
  ∀ it ∈ t, (decodeUser it).Email ≠ "" ∧ deps.IsEmailValid (decodeUser it).Email = true ∧
    keyOf it = some (decodeUser it).Email

instance instDecidableRecordInvariant (deps : Deps) (t : List Item) :
    Decidable (RecordInvariant deps t) :=
  inferInstanceAs (Decidable (∀ it ∈ t, (decodeUser it).Email ≠ "" ∧
    deps.IsEmailValid (decodeUser it).Email = true ∧ keyOf it = some (decodeUser it).Email))

/-- The fields of a `User` as `encoding/json` writes them. -/
def userFields (u : User) : List (String × String) :=
  [("email", u.Email), ("firstname", u.FirstName), ("lastname", u.LastName)]

/-- JSON encoding of a `*User`. -/
def User.toJson (u : User) : Json :=
  Json.obj (userFields u)

/-- JSON encoding of a `*[]User`. -/
def usersToJson (us : List User) : Json :=
  Json.arr (us.map userFields)

/-- The struct `handlers.ErrorBody` holding a non-nil message, JSON encoded. -/
def ErrorBody (msg : String) : Json :=
  Json.obj [("error", msg)]

/-- Modelled from the spec: `apiResponse` is called by `handlers.go` but is not
in the source files. Section 6 gives the outbound response as a status code
and a body that is the JSON encoding of the value passed. -/
def apiResponse (status : Nat) (body : Json) : APIGatewayProxyResponse :=
  { StatusCode := status, Body := body }

/-! ## `pkg/user/user.go` -/

namespace user

def ErrorFailedToFetchRecord : String := "failed to fetch record(s)"
def ErrorFailedToUnmarshalRecord : String := "failed to unmarshal"
def ErrorInvalidUserData : String := "invalid user data"
def ErrorInvalidEmail : String := "invalid email"
def ErrorCouldNotMarshalItem : String := "could not marshal item"
def ErrorCouldNotDeleteItem : String := "could not delete item"
def ErrorCouldNotDynamoPutItem : String := "could not dynamo put item"
def ErrorUserAlreadyExists : String := "user.User already exists"
def ErrorUserDoesNotExist : String := "user.User does not exist"

/-- The function `user.FetchUser`. -/
def FetchUser (email tablename : String) (c : Client) : Except String User × Client :=
  match c.GetItem tablename email with
  | (Except.error _, c1) => (Except.error ErrorFailedToFetchRecord, c1)
  | (Except.ok item, c1) =>
    match UnmarshalMap item with
    | Except.error _ => (Except.error ErrorFailedToUnmarshalRecord, c1)
    | Except.ok u => (Except.ok u, c1)

/-- The function `user.FetchUsers`. The source assigns the error of
`UnmarshalListOfMaps` to `err` and never reads it: whatever the decoder
reports, the slice it filled is returned with a nil error. -/
def FetchUsers (tablename : String) (c : Client) : Except String (List User) × Client :=
  match c.Scan tablename with
  | (Except.error _, c1) => (Except.error ErrorFailedToFetchRecord, c1)
  | (Except.ok items, c1) => (Except.ok (UnmarshalListOfMaps items).1, c1)

/-- The test `currentUser != nil && len(currentUser.Email) != 0` on the result
of `currentUser, _ := FetchUser(...)`: the pointer is nil exactly on an error. -/
def foundNonEmpty : Except String User → Bool
  | Except.ok cu => decide (cu.Email ≠ "")
  | Except.error _ => false

/-- The test `currentUser != nil && len(currentUser.Email) == 0`. -/
def foundEmpty : Except String User → Bool
  | Except.ok cu => decide (cu.Email = "")
  | Except.error _ => false

/-- The last steps of `CreateUser` and of `UpdateUser`, which are the same
code in both: marshal, put, return the record. Named for the proofs. -/
def marshalAndPut (u : User) (tablename : String) (c : Client) : Except String User × Client :=
  match MarshalMap u with
  | Except.error _ => (Except.error ErrorCouldNotMarshalItem, c)
  | Except.ok dynaUserJSON =>
    match c.PutItem tablename dynaUserJSON with
    | (Except.error _, c2) => (Except.error ErrorCouldNotDynamoPutItem, c2)
    | (Except.ok _, c2) => (Except.ok u, c2)

/-- The function `user.CreateUser`. -/
def CreateUser (deps : Deps) (req : APIGatewayProxyRequest) (tablename : String) (c : Client) :
    Except String User × Client :=
  match deps.jsonUnmarshal req.Body with
  | none => (Except.error ErrorInvalidUserData, c)
  | some u =>
    if !deps.IsEmailValid u.Email then (Except.error ErrorInvalidEmail, c)
    else
      match FetchUser u.Email tablename c with
      | (currentUser, c1) =>
        if foundNonEmpty currentUser then (Except.error ErrorUserAlreadyExists, c1)
        else
          match MarshalMap u with
          | Except.error _ => (Except.error ErrorCouldNotMarshalItem, c1)
          | Except.ok dynaUserJSON =>
            match c1.PutItem tablename dynaUserJSON with
            | (Except.error _, c2) => (Except.error ErrorCouldNotDynamoPutItem, c2)
            | (Except.ok _, c2) => (Except.ok u, c2)

/-- The function `user.UpdateUser`. -/
def UpdateUser (deps : Deps) (req : APIGatewayProxyRequest) (tablename : String) (c : Client) :
    Except String User × Client :=
  match deps.jsonUnmarshal req.Body with
  | none => (Except.error ErrorInvalidUserData, c)
  | some u =>
    match FetchUser u.Email tablename c with
    | (currentUser, c1) =>
      if foundEmpty currentUser then (Except.error ErrorUserDoesNotExist, c1)
      else
        match MarshalMap u with
        | Except.error _ => (Except.error ErrorCouldNotMarshalItem, c1)
        | Except.ok dynaUserJSON =>
          match c1.PutItem tablename dynaUserJSON with
          | (Except.error _, c2) => (Except.error ErrorCouldNotDynamoPutItem, c2)
          | (Except.ok _, c2) => (Except.ok u, c2)

/-- The function `user.DeleteUser`. -/
def DeleteUser (req : APIGatewayProxyRequest) (tablename : String) (c : Client) :
    Except String String × Client :=
  let email := queryParam req.QueryStringParameters "email"
  match c.DeleteItem tablename email with
  | (Except.error _, c1) => (Except.error ErrorCouldNotDeleteItem, c1)
  | (Except.ok _, c1) => (Except.ok email, c1)

end user

/-! ## `pkg/handlers/handlers.go` -/

namespace handlers

def ErrorMethodNotAllowed : String := "method not allowed"
def ErrorInvalidEmail : String := "invalid email"

/-- The function `handlers.GetUser`. -/
def GetUser (deps : Deps) (req : APIGatewayProxyRequest) (tablename : String) (c : Client) :
    APIGatewayProxyResponse × Client :=
  let email := queryParam req.QueryStringParameters "email"
  -- the test `len(email) > 0`
  if email ≠ "" then
    if !deps.IsEmailValid email then (apiResponse 400 (Json.str ErrorInvalidEmail), c)
    else
      match user.FetchUser email tablename c with
      | (Except.error err, c1) => (apiResponse 400 (ErrorBody err), c1)
      | (Except.ok result, c1) => (apiResponse 200 result.toJson, c1)
  else
    match user.FetchUsers tablename c with
    | (Except.error err, c1) => (apiResponse 400 (ErrorBody err), c1)
    | (Except.ok results, c1) => (apiResponse 200 (usersToJson results), c1)

/-- The function `handlers.CreateUser`. -/
def CreateUser (deps : Deps) (req : APIGatewayProxyRequest) (tablename : String) (c : Client) :
    APIGatewayProxyResponse × Client :=
  match user.CreateUser deps req tablename c with
  | (Except.error err, c1) => (apiResponse 400 (ErrorBody err), c1)
  | (Except.ok result, c1) => (apiResponse 201 result.toJson, c1)

/-- The function `handlers.UpdateUser`. -/
def UpdateUser (deps : Deps) (req : APIGatewayProxyRequest) (tablename : String) (c : Client) :
    APIGatewayProxyResponse × Client :=
  match user.UpdateUser deps req tablename c with
  | (Except.error err, c1) => (apiResponse 400 (ErrorBody err), c1)
  | (Except.ok result, c1) => (apiResponse 200 result.toJson, c1)

/-- The function `handlers.DeleteUser`. -/
def DeleteUser (req : APIGatewayProxyRequest) (tablename : String) (c : Client) :
    APIGatewayProxyResponse × Client :=
  match user.DeleteUser req tablename c with
  | (Except.error err, c1) => (apiResponse 400 (ErrorBody err), c1)
  | (Except.ok result, c1) => (apiResponse 200 (Json.str result), c1)

/-- The function `handlers.UnhandledMetod`. -/
def UnhandledMetod : APIGatewayProxyResponse :=
  apiResponse 405 (Json.str ErrorMethodNotAllowed)

end handlers

/-! ## `cmd/main.go` -/

def TABLENAME : String := "go-serverless-aws-lambda-dynamodb"

/-- The function `handler` of `cmd/main.go`; the package variable
`dynamodbClient` is the client passed in and returned. -/
def handler (deps : Deps) (req : APIGatewayProxyRequest) (c : Client) :
    APIGatewayProxyResponse × Client :=
  if req.HTTPMethod = "GET" then handlers.GetUser deps req TABLENAME c
  else if req.HTTPMethod = "POST" then handlers.CreateUser deps req TABLENAME c
  else if req.HTTPMethod = "PUT" then handlers.UpdateUser deps req TABLENAME c
  else if req.HTTPMethod = "DELETE" then handlers.DeleteUser req TABLENAME c
  else (handlers.UnhandledMetod, c)

/-! ## Concrete collaborators for the scenarios of the specification -/

/-- A validator for the scenarios: at least three characters with an `@` among them. -/
def scenarioIsEmailValid (s : String) : Bool :=
  decide (3 ≤ s.length) && s.toList.contains '@'

/-- A body decoder for the scenarios: it knows three request bodies. -/
def scenarioUnmarshal (body : String) : Option User :=
  if body = "\x7b\"email\":\"a@b.com\",\"firstname\":\"A\",\"lastname\":\"B\"\x7d" then
    some { Email := "a@b.com", FirstName := "A", LastName := "B" }
  else if body = "\x7b\"email\":\"a@b.com\",\"firstname\":\"C\",\"lastname\":\"D\"\x7d" then
    some { Email := "a@b.com", FirstName := "C", LastName := "D" }
  else if body = "\x7b\"email\":\"bad\",\"firstname\":\"X\",\"lastname\":\"Y\"\x7d" then
    some { Email := "bad", FirstName := "X", LastName := "Y" }
  else none

/-- The collaborators used in the scenarios. -/
def scenarioDeps : Deps :=
  { IsEmailValid := scenarioIsEmailValid, jsonUnmarshal := scenarioUnmarshal }


/-! ## Auxiliary facts about the encoding and the store -/

theorem decodeString_encodeString (s : String) : decodeString (some (encodeString s)) = s := by
  unfold encodeString
  split
  · subst_vars; rfl
  · rfl

theorem decodeUser_encodeUser (u : User) : decodeUser (encodeUser u) = u := by
  cases u with
  | mk e f l =>
    simp [decodeUser, encodeUser, List.lookup, decodeString_encodeString]

theorem keyOf_encodeUser (u : User) (h : u.Email ≠ "") : keyOf (encodeUser u) = some u.Email := by
  simp [keyOf, encodeUser, List.lookup, encodeString, h]

theorem keyOf_encodeUser_empty (u : User) (h : u.Email = "") : keyOf (encodeUser u) = none := by
  simp [keyOf, encodeUser, List.lookup, encodeString, h]

theorem decodeUser_email_of_keyOf (it : Item) (k : String) (h : keyOf it = some k) :
    (decodeUser it).Email = k := by
  unfold keyOf at h
  cases hl : it.lookup "email" with
  | none => simp [hl] at h
  | some a =>
    cases a with
    | S s => simp [hl] at h; simp [decodeUser, hl, decodeString, h]
    | NULL => simp [hl] at h

theorem decodeUser_nil : decodeUser [] = { Email := "", FirstName := "", LastName := "" } := by
  rfl

theorem healthy_nextFails (c : Client) (h : c.Healthy) : c.nextFails = false := by
  unfold Client.nextFails
  cases hf : c.faults with
  | nil => rfl
  | cons b bs => exact h b (by simp [hf])

theorem healthy_tick (c : Client) (call : Call) (h : c.Healthy) : (c.tick call).Healthy := by
  intro b hb
  exact h b (List.mem_of_mem_tail hb)

theorem find_key_some (t : List Item) (e : String) (h : ∃ it ∈ t, keyOf it = some e) :
    ∃ it, t.find? (fun it => decide (keyOf it = some e)) = some it ∧ keyOf it = some e := by
  cases hf : t.find? (fun it => decide (keyOf it = some e)) with
  | none =>
    obtain ⟨it, hit, hk⟩ := h
    have := List.find?_eq_none.mp hf it hit
    simp [hk] at this
  | some it =>
    refine ⟨it, rfl, ?_⟩
    have := List.find?_some hf
    simpa using this

theorem find_key_none (t : List Item) (e : String) (h : ¬ ∃ it ∈ t, keyOf it = some e) :
    t.find? (fun it => decide (keyOf it = some e)) = none := by
  apply List.find?_eq_none.mpr
  intro it hit
  simp only [decide_eq_true_eq]
  intro hk
  exact h ⟨it, hit, hk⟩

theorem FetchUser_ok (email tablename : String) (c : Client) (h : c.nextFails = false) :
    user.FetchUser email tablename c =
      (Except.ok (decodeUser ((c.table.find? (fun it => decide (keyOf it = some email))).getD [])),
        c.tick (Call.GetItem tablename email)) := by
  simp [user.FetchUser, Client.GetItem, h, UnmarshalMap]

theorem FetchUser_fail (email tablename : String) (c : Client) (h : c.nextFails = true) :
    user.FetchUser email tablename c =
      (Except.error user.ErrorFailedToFetchRecord, c.tick (Call.GetItem tablename email)) := by
  simp [user.FetchUser, Client.GetItem, h]

theorem marshalAndPut_ok (u : User) (tablename : String) (c : Client)
    (h : c.nextFails = false) (hne : u.Email ≠ "") :
    user.marshalAndPut u tablename c =
      (Except.ok u,
        { c.tick (Call.PutItem tablename (encodeUser u)) with
          table := c.table.filter (fun it => decide (keyOf it ≠ some u.Email)) ++ [encodeUser u] }) := by
  simp [user.marshalAndPut, MarshalMap, Client.PutItem, h, keyOf_encodeUser u hne, hne]

theorem tick_table (c : Client) (call : Call) : (c.tick call).table = c.table := rfl

theorem tick_nextFails_of_healthy (c : Client) (call : Call) (h : c.Healthy) :
    (c.tick call).nextFails = false :=
  healthy_nextFails _ (healthy_tick c call h)

theorem CreateUser_tail (deps : Deps) (req : APIGatewayProxyRequest) (tablename : String)
    (c : Client) :
    user.CreateUser deps req tablename c =
      match deps.jsonUnmarshal req.Body with
      | none => (Except.error user.ErrorInvalidUserData, c)
      | some u =>
        if !deps.IsEmailValid u.Email then (Except.error user.ErrorInvalidEmail, c)
        else
          if user.foundNonEmpty (user.FetchUser u.Email tablename c).1 then
            (Except.error user.ErrorUserAlreadyExists, (user.FetchUser u.Email tablename c).2)
          else user.marshalAndPut u tablename (user.FetchUser u.Email tablename c).2 := by
  unfold user.CreateUser user.marshalAndPut
  rfl

theorem UpdateUser_tail (deps : Deps) (req : APIGatewayProxyRequest) (tablename : String)
    (c : Client) :
    user.UpdateUser deps req tablename c =
      match deps.jsonUnmarshal req.Body with
      | none => (Except.error user.ErrorInvalidUserData, c)
      | some u =>
        if user.foundEmpty (user.FetchUser u.Email tablename c).1 then
          (Except.error user.ErrorUserDoesNotExist, (user.FetchUser u.Email tablename c).2)
        else user.marshalAndPut u tablename (user.FetchUser u.Email tablename c).2 := by
  unfold user.UpdateUser user.marshalAndPut
  rfl

/-- C9. Encoding a record with `MarshalMap`, as `CreateUser` and `UpdateUser`
do, and decoding the result with `UnmarshalMap`, as `FetchUser` does, gives
back the same record, also when fields are empty strings. -/
theorem marshal_unmarshal_roundtrip (u : User) :
    (MarshalMap u).bind UnmarshalMap = Except.ok u := by
  simp [MarshalMap, UnmarshalMap, Except.bind, decodeUser_encodeUser]


/-- C1. The dispatcher selects by the exact method token: `GET`, `POST`, `PUT`
and `DELETE` go to the four handlers, and every other token is answered with
status 405 and the body "method not allowed", the client being returned as it
was received (no store call, no change of the table). -/
theorem handler_dispatch (deps : Deps) (req : APIGatewayProxyRequest) (c : Client) :
    (req.HTTPMethod = "GET" → handler deps req c = handlers.GetUser deps req TABLENAME c) ∧
    (req.HTTPMethod = "POST" → handler deps req c = handlers.CreateUser deps req TABLENAME c) ∧
    (req.HTTPMethod = "PUT" → handler deps req c = handlers.UpdateUser deps req TABLENAME c) ∧
    (req.HTTPMethod = "DELETE" → handler deps req c = handlers.DeleteUser req TABLENAME c) ∧
    (req.HTTPMethod ∉ ["GET", "POST", "PUT", "DELETE"] →
      handler deps req c =
        ({ StatusCode := 405, Body := Json.str "method not allowed" }, c)) := by
  refine ⟨?_, ?_, ?_, ?_, ?_⟩
  · intro h; simp [handler, h]
  · intro h; simp [handler, h]
  · intro h; simp [handler, h]
  · intro h; simp [handler, h]
  · intro h
    simp only [List.mem_cons, List.mem_singleton, List.not_mem_nil, or_false, not_or] at h
    obtain ⟨h1, h2, h3, h4⟩ := h
    simp [handler, h1, h2, h3, h4, handlers.UnhandledMetod, handlers.ErrorMethodNotAllowed,
      apiResponse]

/-- C1, at the tokens `PATCH`, `get` and the empty token, on a client holding
one record: status 405, the fixed message, and the client untouched. -/
theorem handler_dispatch_witness :
    "PATCH" ∉ ["GET", "POST", "PUT", "DELETE"] ∧
    handler scenarioDeps { HTTPMethod := "PATCH", QueryStringParameters := [], Body := "" }
        { table := [encodeUser { Email := "a@b.com", FirstName := "A", LastName := "B" }],
          faults := [], log := [] } =
      ({ StatusCode := 405, Body := Json.str "method not allowed" },
        { table := [encodeUser { Email := "a@b.com", FirstName := "A", LastName := "B" }],
          faults := [], log := [] }) ∧
    (handler scenarioDeps { HTTPMethod := "get", QueryStringParameters := [], Body := "" }
        { table := [], faults := [], log := [] }).1 =
      { StatusCode := 405, Body := Json.str "method not allowed" } ∧
    (handler scenarioDeps { HTTPMethod := "", QueryStringParameters := [], Body := "" }
        { table := [], faults := [], log := [] }).1 =
      { StatusCode := 405, Body := Json.str "method not allowed" } :=
  ⟨by decide,
   (handler_dispatch scenarioDeps
      { HTTPMethod := "PATCH", QueryStringParameters := [], Body := "" }
      { table := [encodeUser { Email := "a@b.com", FirstName := "A", LastName := "B" }],
        faults := [], log := [] }).2.2.2.2 (by decide),
   by decide, by decide⟩

/-- C5. On `GET` with `email=not-an-email` the handler `GetUser` answers 400
without any store call, but the body is the bare JSON string "invalid email",
not the object with the field `error` that the other error answers carry. -/
theorem GetUser_invalid_email_body :
    handlers.GetUser scenarioDeps
        { HTTPMethod := "GET", QueryStringParameters := [("email", "not-an-email")], Body := "" }
        TABLENAME { table := [], faults := [], log := [] } =
      ({ StatusCode := 400, Body := Json.str "invalid email" },
        { table := [], faults := [], log := [] }) ∧
    Json.str "invalid email" ≠ ErrorBody "invalid email" ∧
    (handlers.GetUser scenarioDeps
        { HTTPMethod := "GET", QueryStringParameters := [("email", "a@b.com")], Body := "" }
        TABLENAME { table := [], faults := [true], log := [] }).1 =
      { StatusCode := 400, Body := ErrorBody "failed to fetch record(s)" } := by
  decide

/-- C4. A failed `GetItem` inside `CreateUser` and `UpdateUser` does not fail
the operation: the error of `FetchUser` is dropped, `PutItem` is still issued,
and the operation reports success. Here the first store call fails and the
second succeeds; `CreateUser` overwrites a record that exists, and
`UpdateUser` writes a record that did not exist. -/
theorem create_update_continue_after_failed_get :
    user.CreateUser scenarioDeps
        { HTTPMethod := "POST", QueryStringParameters := [],
          Body := "\x7b\"email\":\"a@b.com\",\"firstname\":\"C\",\"lastname\":\"D\"\x7d" }
        TABLENAME
        { table := [encodeUser { Email := "a@b.com", FirstName := "A", LastName := "B" }],
          faults := [true], log := [] } =
      (Except.ok { Email := "a@b.com", FirstName := "C", LastName := "D" },
        { table := [encodeUser { Email := "a@b.com", FirstName := "C", LastName := "D" }],
          faults := [],
          log := [Call.GetItem TABLENAME "a@b.com",
                  Call.PutItem TABLENAME
                    (encodeUser { Email := "a@b.com", FirstName := "C", LastName := "D" })] }) ∧
    user.UpdateUser scenarioDeps
        { HTTPMethod := "PUT", QueryStringParameters := [],
          Body := "\x7b\"email\":\"a@b.com\",\"firstname\":\"A\",\"lastname\":\"B\"\x7d" }
        TABLENAME { table := [], faults := [true], log := [] } =
      (Except.ok { Email := "a@b.com", FirstName := "A", LastName := "B" },
        { table := [encodeUser { Email := "a@b.com", FirstName := "A", LastName := "B" }],
          faults := [],
          log := [Call.GetItem TABLENAME "a@b.com",
                  Call.PutItem TABLENAME
                    (encodeUser { Email := "a@b.com", FirstName := "A", LastName := "B" })] }) := by
  exact ⟨rfl, rfl⟩

/-- The operations that make a single store call fail with it: when that call
fails, `FetchUser`, `FetchUsers` and `DeleteUser` return an error, the table is
as before and the log has grown by that one call. -/
theorem single_call_operations_fail_with_the_store (req : APIGatewayProxyRequest)
    (email tablename : String) (c : Client) (h : c.nextFails = true) :
    user.FetchUser email tablename c =
      (Except.error "failed to fetch record(s)", c.tick (Call.GetItem tablename email)) ∧
    user.FetchUsers tablename c =
      (Except.error "failed to fetch record(s)", c.tick (Call.Scan tablename)) ∧
    user.DeleteUser req tablename c =
      (Except.error "could not delete item",
        c.tick (Call.DeleteItem tablename (queryParam req.QueryStringParameters "email"))) := by
  refine ⟨?_, ?_, ?_⟩
  · simp [user.FetchUser, Client.GetItem, h, user.ErrorFailedToFetchRecord]
  · simp [user.FetchUsers, Client.Scan, h, user.ErrorFailedToFetchRecord]
  · simp [user.DeleteUser, Client.DeleteItem, h, user.ErrorCouldNotDeleteItem]

/-- A failed `PutItem` fails `CreateUser` and `UpdateUser`: the shared tail
returns the put error and leaves the table as it was. -/
theorem marshalAndPut_fails_with_the_store (u : User) (tablename : String) (c : Client)
    (h : c.nextFails = true) :
    user.marshalAndPut u tablename c =
      (Except.error "could not dynamo put item",
        c.tick (Call.PutItem tablename (encodeUser u))) := by
  simp [user.marshalAndPut, MarshalMap, Client.PutItem, h, user.ErrorCouldNotDynamoPutItem]

/-- C6, as stated, fails: when the store's delete call fails, `DeleteUser`
returns the error "could not delete item" and the record stays in the table. -/
theorem DeleteUser_not_always_success :
    user.DeleteUser
        { HTTPMethod := "DELETE", QueryStringParameters := [("email", "a@b.com")], Body := "" }
        TABLENAME
        { table := [encodeUser { Email := "a@b.com", FirstName := "A", LastName := "B" }],
          faults := [true], log := [] } =
      (Except.error "could not delete item",
        { table := [encodeUser { Email := "a@b.com", FirstName := "A", LastName := "B" }],
          faults := [],
          log := [Call.DeleteItem TABLENAME "a@b.com"] }) := by
  rfl

/-- C6, amended. When the store's delete call does not fail, `DeleteUser`
returns the `email` query parameter with no error, whether or not a record was
stored under it and whatever its form; afterwards no item is stored under that
email and the items under every other key are the ones from before, in the
same order. -/
theorem DeleteUser_success (req : APIGatewayProxyRequest) (tablename : String) (c : Client)
    (h : c.nextFails = false) :
    (user.DeleteUser req tablename c).1 =
      Except.ok (queryParam req.QueryStringParameters "email") ∧
    (∀ it ∈ (user.DeleteUser req tablename c).2.table,
      keyOf it ≠ some (queryParam req.QueryStringParameters "email")) ∧
    (user.DeleteUser req tablename c).2.table =
      c.table.filter (fun it => decide (keyOf it ≠ some (queryParam req.QueryStringParameters "email"))) ∧
    (∀ it, keyOf it ≠ some (queryParam req.QueryStringParameters "email") →
      (it ∈ (user.DeleteUser req tablename c).2.table ↔ it ∈ c.table)) := by
  have hrun : user.DeleteUser req tablename c =
      (Except.ok (queryParam req.QueryStringParameters "email"),
        { c.tick (Call.DeleteItem tablename (queryParam req.QueryStringParameters "email")) with
          table := c.table.filter
            (fun it => decide (keyOf it ≠ some (queryParam req.QueryStringParameters "email"))) }) := by
    simp [user.DeleteUser, Client.DeleteItem, h]
  rw [hrun]
  refine ⟨rfl, ?_, rfl, ?_⟩
  · intro it hit
    simpa using (List.mem_filter.mp hit).2
  · intro it hk
    simp [List.mem_filter, hk]

/-- C6, amended, on a table holding one record, for a malformed email that
is not stored: the email is returned and the table is as before. -/
theorem DeleteUser_success_witness :
    Client.nextFails
        { table := [encodeUser { Email := "a@b.com", FirstName := "A", LastName := "B" }],
          faults := [], log := [] } = false ∧
    (user.DeleteUser
        { HTTPMethod := "DELETE", QueryStringParameters := [("email", "not-an-email")], Body := "" }
        TABLENAME
        { table := [encodeUser { Email := "a@b.com", FirstName := "A", LastName := "B" }],
          faults := [], log := [] }).1 = Except.ok "not-an-email" :=
  ⟨rfl,
   (DeleteUser_success
      { HTTPMethod := "DELETE", QueryStringParameters := [("email", "not-an-email")], Body := "" }
      TABLENAME
      { table := [encodeUser { Email := "a@b.com", FirstName := "A", LastName := "B" }],
        faults := [], log := [] } rfl).1⟩

/-- When the store's scan call fails, a `GET` whose `email` parameter is
absent or empty is answered with status 400 and the fetch error; the table is
left as it was. -/
theorem GetUser_all_scan_failure (deps : Deps) (req : APIGatewayProxyRequest) (c : Client)
    (hm : req.HTTPMethod = "GET") (hq : queryParam req.QueryStringParameters "email" = "")
    (h : c.nextFails = true) :
    (handler deps req c).1 =
      { StatusCode := 400, Body := Json.obj [("error", "failed to fetch record(s)")] } ∧
    (handler deps req c).2.table = c.table := by
  simp [handler, hm, handlers.GetUser, hq, user.FetchUsers, Client.Scan, h, apiResponse,
    ErrorBody, user.ErrorFailedToFetchRecord, Client.tick]

/-- On a table that holds the stored representations of the records `us`, as
`CreateUser` and `UpdateUser` write them, and with a scan call that does not
fail, a `GET` whose `email` parameter is absent or empty is answered with
status 200 and the array of exactly the records `us`, one entry per stored
item; the table is left as it was. Tables with items of another form are not
covered: `FetchUsers` drops the error of the list decoder. -/
theorem GetUser_all_on_stored_records (deps : Deps) (req : APIGatewayProxyRequest)
    (c : Client) (us : List User)
    (hm : req.HTTPMethod = "GET") (hq : queryParam req.QueryStringParameters "email" = "")
    (h : c.nextFails = false) (ht : c.table = us.map encodeUser) :
    (handler deps req c).1 = { StatusCode := 200, Body := Json.arr (us.map userFields) } ∧
    (handler deps req c).2.table = c.table := by
  constructor
  · simp [handler, hm, handlers.GetUser, hq, user.FetchUsers, Client.Scan, h,
      UnmarshalListOfMaps, apiResponse, usersToJson, ht, decodeUser_encodeUser]
  · simp [handler, hm, handlers.GetUser, hq, user.FetchUsers, Client.Scan, h, Client.tick]

theorem find_after_put (t : List Item) (u : User) (hne : u.Email ≠ "") :
    (t.filter (fun it => decide (keyOf it ≠ some u.Email)) ++ [encodeUser u]).find?
        (fun it => decide (keyOf it = some u.Email)) = some (encodeUser u) := by
  rw [List.find?_append]
  have h1 : (t.filter (fun it => decide (keyOf it ≠ some u.Email))).find?
      (fun it => decide (keyOf it = some u.Email)) = none := by
    apply List.find?_eq_none.mpr
    intro it hit
    have := (List.mem_filter.mp hit).2
    simpa using this
  rw [h1]
  simp [List.find?, keyOf_encodeUser u hne]

theorem filter_after_put (t : List Item) (u : User) (hne : u.Email ≠ "") :
    (t.filter (fun it => decide (keyOf it ≠ some u.Email)) ++ [encodeUser u]).filter
        (fun it => decide (keyOf it = some u.Email)) = [encodeUser u] := by
  rw [List.filter_append, List.filter_filter]
  have h1 : t.filter (fun it => decide (keyOf it = some u.Email) && decide (keyOf it ≠ some u.Email))
      = [] := by
    apply List.filter_eq_nil_iff.mpr
    intro it _
    simp
  rw [h1]
  simp [List.filter, keyOf_encodeUser u hne]

theorem filter_absent_key (t : List Item) (e : String) (h : ¬ ∃ it ∈ t, keyOf it = some e) :
    t.filter (fun it => decide (keyOf it ≠ some e)) = t := by
  apply List.filter_eq_self.mpr
  intro it hit
  simp only [ne_eq, decide_eq_true_eq]
  intro hk
  exact h ⟨it, hit, hk⟩

theorem healthy_after_two (c : Client) (call1 call2 : Call) (t : List Item) (h : c.Healthy) :
    Client.nextFails { (c.tick call1).tick call2 with table := t } = false := by
  apply healthy_nextFails
  intro b hb
  exact h b (List.mem_of_mem_tail (List.mem_of_mem_tail hb))

/-- C2. With a body that decodes to a record with a valid email and a store
whose calls do not fail: if the table holds an item under that email,
`CreateUser` fails with "user.User already exists" after the one get and the
table is unchanged; otherwise it returns the decoded record, the table is the
old one with the encoded record added, that record is the only item under the
email, and a following `FetchUser` of the email returns the record. -/
theorem CreateUser_conflict_or_persist (deps : Deps) (req : APIGatewayProxyRequest)
    (tablename : String) (c : Client) (u : User)
    (hbody : deps.jsonUnmarshal req.Body = some u)
    (hvalid : deps.IsEmailValid u.Email = true)
    (hempty : deps.IsEmailValid "" = false)
    (hc : c.Healthy) :
    ((∃ it ∈ c.table, keyOf it = some u.Email) →
      (user.CreateUser deps req tablename c).1 = Except.error "user.User already exists" ∧
      (user.CreateUser deps req tablename c).2.table = c.table ∧
      (user.CreateUser deps req tablename c).2.log = c.log ++ [Call.GetItem tablename u.Email]) ∧
    ((¬ ∃ it ∈ c.table, keyOf it = some u.Email) →
      (user.CreateUser deps req tablename c).1 = Except.ok u ∧
      (user.CreateUser deps req tablename c).2.table = c.table ++ [encodeUser u] ∧
      (user.CreateUser deps req tablename c).2.table.filter
        (fun it => decide (keyOf it = some u.Email)) = [encodeUser u] ∧
      (user.FetchUser u.Email tablename (user.CreateUser deps req tablename c).2).1
        = Except.ok u) := by
  have hne : u.Email ≠ "" := by
    intro h0
    rw [h0, hempty] at hvalid
    exact Bool.noConfusion hvalid
  have hnf := healthy_nextFails c hc
  have hnf1 := tick_nextFails_of_healthy c (Call.GetItem tablename u.Email) hc
  constructor
  · intro hex
    obtain ⟨it, hfind, hkey⟩ := find_key_some c.table u.Email hex
    have hmail := decodeUser_email_of_keyOf it u.Email hkey
    have hrun : user.CreateUser deps req tablename c =
        (Except.error "user.User already exists", c.tick (Call.GetItem tablename u.Email)) := by
      simp [CreateUser_tail, hbody, hvalid, FetchUser_ok _ _ _ hnf, hfind, user.foundNonEmpty,
        hmail, hne, user.ErrorUserAlreadyExists]
    rw [hrun]
    exact ⟨rfl, rfl, rfl⟩
  · intro hno
    have hfind := find_key_none c.table u.Email hno
    have hrun : user.CreateUser deps req tablename c =
        (Except.ok u,
          { (c.tick (Call.GetItem tablename u.Email)).tick
              (Call.PutItem tablename (encodeUser u)) with
            table := c.table.filter (fun it => decide (keyOf it ≠ some u.Email))
              ++ [encodeUser u] }) := by
      simp [CreateUser_tail, hbody, hvalid, FetchUser_ok _ _ _ hnf, hfind, user.foundNonEmpty,
        decodeUser_nil, marshalAndPut_ok u tablename _ hnf1 hne, tick_table]
    rw [hrun]
    refine ⟨rfl, ?_, ?_, ?_⟩
    · simp only [filter_absent_key c.table u.Email hno]
    · exact filter_after_put c.table u hne
    · rw [FetchUser_ok _ _ _ (healthy_after_two c _ _ _ hc)]
      simp only [find_after_put c.table u hne, Option.getD_some, decodeUser_encodeUser]

/-- C2 on the scenario of the specification: the first `POST` on the empty
table creates the record, the second one is a conflict. -/
theorem CreateUser_conflict_or_persist_witness :
    scenarioDeps.jsonUnmarshal "\x7b\"email\":\"a@b.com\",\"firstname\":\"A\",\"lastname\":\"B\"\x7d"
      = some { Email := "a@b.com", FirstName := "A", LastName := "B" } ∧
    scenarioDeps.IsEmailValid "a@b.com" = true ∧
    scenarioDeps.IsEmailValid "" = false ∧
    (user.CreateUser scenarioDeps
        { HTTPMethod := "POST", QueryStringParameters := [],
          Body := "\x7b\"email\":\"a@b.com\",\"firstname\":\"A\",\"lastname\":\"B\"\x7d" }
        TABLENAME { table := [], faults := [], log := [] }).1 =
      Except.ok { Email := "a@b.com", FirstName := "A", LastName := "B" } ∧
    (user.CreateUser scenarioDeps
        { HTTPMethod := "POST", QueryStringParameters := [],
          Body := "\x7b\"email\":\"a@b.com\",\"firstname\":\"A\",\"lastname\":\"B\"\x7d" }
        TABLENAME
        { table := [encodeUser { Email := "a@b.com", FirstName := "A", LastName := "B" }],
          faults := [], log := [] }).1 =
      Except.error "user.User already exists" :=
  ⟨by decide, by decide, by decide,
   ((CreateUser_conflict_or_persist scenarioDeps
      { HTTPMethod := "POST", QueryStringParameters := [],
        Body := "\x7b\"email\":\"a@b.com\",\"firstname\":\"A\",\"lastname\":\"B\"\x7d" }
      TABLENAME { table := [], faults := [], log := [] }
      { Email := "a@b.com", FirstName := "A", LastName := "B" }
      (by decide) (by decide) (by decide) (by decide)).2 (by decide)).1,
   ((CreateUser_conflict_or_persist scenarioDeps
      { HTTPMethod := "POST", QueryStringParameters := [],
        Body := "\x7b\"email\":\"a@b.com\",\"firstname\":\"A\",\"lastname\":\"B\"\x7d" }
      TABLENAME
      { table := [encodeUser { Email := "a@b.com", FirstName := "A", LastName := "B" }],
        faults := [], log := [] }
      { Email := "a@b.com", FirstName := "A", LastName := "B" }
      (by decide) (by decide) (by decide) (by decide)).1 (by decide)).1⟩


/-- C3. With a body that decodes to a record and a store whose calls do not
fail, on a table that respects the key schema: if the table holds no item
under the record's email, `UpdateUser` fails with "user.User does not exist"
after the one get and the table is unchanged; otherwise it returns the decoded
record, the item under the email is replaced by the encoded record (the only
item under that email afterwards), and a following `FetchUser` of the email
returns the record, so the earlier first and last name are overwritten. -/
theorem UpdateUser_missing_or_overwrite (deps : Deps) (req : APIGatewayProxyRequest)
    (tablename : String) (c : Client) (u : User)
    (hbody : deps.jsonUnmarshal req.Body = some u)
    (hkeys : Keyed c.table)
    (hc : c.Healthy) :
    ((¬ ∃ it ∈ c.table, keyOf it = some u.Email) →
      (user.UpdateUser deps req tablename c).1 = Except.error "user.User does not exist" ∧
      (user.UpdateUser deps req tablename c).2.table = c.table ∧
      (user.UpdateUser deps req tablename c).2.log = c.log ++ [Call.GetItem tablename u.Email]) ∧
    ((∃ it ∈ c.table, keyOf it = some u.Email) →
      (user.UpdateUser deps req tablename c).1 = Except.ok u ∧
      (user.UpdateUser deps req tablename c).2.table =
        c.table.filter (fun it => decide (keyOf it ≠ some u.Email)) ++ [encodeUser u] ∧
      (user.UpdateUser deps req tablename c).2.table.filter
        (fun it => decide (keyOf it = some u.Email)) = [encodeUser u] ∧
      (user.FetchUser u.Email tablename (user.UpdateUser deps req tablename c).2).1
        = Except.ok u) := by
  have hnf := healthy_nextFails c hc
  have hnf1 := tick_nextFails_of_healthy c (Call.GetItem tablename u.Email) hc
  constructor
  · intro hno
    have hfind := find_key_none c.table u.Email hno
    have hrun : user.UpdateUser deps req tablename c =
        (Except.error "user.User does not exist", c.tick (Call.GetItem tablename u.Email)) := by
      simp [UpdateUser_tail, hbody, FetchUser_ok _ _ _ hnf, hfind, user.foundEmpty,
        decodeUser_nil, user.ErrorUserDoesNotExist]
    rw [hrun]
    exact ⟨rfl, rfl, rfl⟩
  · intro hex
    have hne : u.Email ≠ "" := by
      obtain ⟨it, hit, hk⟩ := hex
      intro h0
      rw [h0] at hk
      exact hkeys it hit hk
    obtain ⟨it, hfind, hkey⟩ := find_key_some c.table u.Email hex
    have hmail := decodeUser_email_of_keyOf it u.Email hkey
    have hrun : user.UpdateUser deps req tablename c =
        (Except.ok u,
          { (c.tick (Call.GetItem tablename u.Email)).tick
              (Call.PutItem tablename (encodeUser u)) with
            table := c.table.filter (fun it => decide (keyOf it ≠ some u.Email))
              ++ [encodeUser u] }) := by
      simp [UpdateUser_tail, hbody, FetchUser_ok _ _ _ hnf, hfind, user.foundEmpty,
        hmail, hne, marshalAndPut_ok u tablename _ hnf1 hne, tick_table]
    rw [hrun]
    refine ⟨rfl, rfl, ?_, ?_⟩
    · exact filter_after_put c.table u hne
    · rw [FetchUser_ok _ _ _ (healthy_after_two c _ _ _ hc)]
      simp only [find_after_put c.table u hne, Option.getD_some, decodeUser_encodeUser]

/-- C3 on two requests: a `PUT` for a@b.com on the empty table is refused, and
on a table holding a@b.com with names A and B it stores the names C and D. -/
theorem UpdateUser_missing_or_overwrite_witness :
    Keyed [encodeUser { Email := "a@b.com", FirstName := "A", LastName := "B" }] ∧
    (user.UpdateUser scenarioDeps
        { HTTPMethod := "PUT", QueryStringParameters := [],
          Body := "\x7b\"email\":\"a@b.com\",\"firstname\":\"C\",\"lastname\":\"D\"\x7d" }
        TABLENAME { table := [], faults := [], log := [] }).1 =
      Except.error "user.User does not exist" ∧
    (user.UpdateUser scenarioDeps
        { HTTPMethod := "PUT", QueryStringParameters := [],
          Body := "\x7b\"email\":\"a@b.com\",\"firstname\":\"C\",\"lastname\":\"D\"\x7d" }
        TABLENAME
        { table := [encodeUser { Email := "a@b.com", FirstName := "A", LastName := "B" }],
          faults := [], log := [] }).2.table =
      [encodeUser { Email := "a@b.com", FirstName := "C", LastName := "D" }] :=
  ⟨by decide,
   ((UpdateUser_missing_or_overwrite scenarioDeps
      { HTTPMethod := "PUT", QueryStringParameters := [],
        Body := "\x7b\"email\":\"a@b.com\",\"firstname\":\"C\",\"lastname\":\"D\"\x7d" }
      TABLENAME { table := [], faults := [], log := [] }
      { Email := "a@b.com", FirstName := "C", LastName := "D" }
      (by decide) (by decide) (by decide)).1 (by decide)).1,
   ((UpdateUser_missing_or_overwrite scenarioDeps
      { HTTPMethod := "PUT", QueryStringParameters := [],
        Body := "\x7b\"email\":\"a@b.com\",\"firstname\":\"C\",\"lastname\":\"D\"\x7d" }
      TABLENAME
      { table := [encodeUser { Email := "a@b.com", FirstName := "A", LastName := "B" }],
        faults := [], log := [] }
      { Email := "a@b.com", FirstName := "C", LastName := "D" }
      (by decide) (by decide) (by decide)).2 (by decide)).2.1⟩


theorem handlers_GetUser_fst (deps : Deps) (req : APIGatewayProxyRequest) (t : String)
    (c : Client) :
    (handlers.GetUser deps req t c).1 =
      if queryParam req.QueryStringParameters "email" ≠ "" then
        if deps.IsEmailValid (queryParam req.QueryStringParameters "email") = false then
          { StatusCode := 400, Body := Json.str "invalid email" }
        else
          match (user.FetchUser (queryParam req.QueryStringParameters "email") t c).1 with
          | Except.error err => { StatusCode := 400, Body := ErrorBody err }
          | Except.ok r => { StatusCode := 200, Body := r.toJson }
      else
        match (user.FetchUsers t c).1 with
        | Except.error err => { StatusCode := 400, Body := ErrorBody err }
        | Except.ok rs => { StatusCode := 200, Body := usersToJson rs } := by
  unfold handlers.GetUser
  simp only [apiResponse, handlers.ErrorInvalidEmail]
  split
  · split
    · simp_all
    · generalize user.FetchUser (queryParam req.QueryStringParameters "email") t c = x
      rcases x with ⟨_ | _, _⟩ <;> simp_all
  · generalize user.FetchUsers t c = x
    rcases x with ⟨_ | _, _⟩ <;> rfl

theorem handlers_CreateUser_fst (deps : Deps) (req : APIGatewayProxyRequest) (t : String)
    (c : Client) :
    (handlers.CreateUser deps req t c).1 =
      match (user.CreateUser deps req t c).1 with
      | Except.error err => { StatusCode := 400, Body := ErrorBody err }
      | Except.ok r => { StatusCode := 201, Body := r.toJson } := by
  unfold handlers.CreateUser
  generalize user.CreateUser deps req t c = x
  rcases x with ⟨_ | _, _⟩ <;> rfl

theorem handlers_UpdateUser_fst (deps : Deps) (req : APIGatewayProxyRequest) (t : String)
    (c : Client) :
    (handlers.UpdateUser deps req t c).1 =
      match (user.UpdateUser deps req t c).1 with
      | Except.error err => { StatusCode := 400, Body := ErrorBody err }
      | Except.ok r => { StatusCode := 200, Body := r.toJson } := by
  unfold handlers.UpdateUser
  generalize user.UpdateUser deps req t c = x
  rcases x with ⟨_ | _, _⟩ <;> rfl

theorem handlers_DeleteUser_fst (req : APIGatewayProxyRequest) (t : String) (c : Client) :
    (handlers.DeleteUser req t c).1 =
      match (user.DeleteUser req t c).1 with
      | Except.error err => { StatusCode := 400, Body := ErrorBody err }
      | Except.ok r => { StatusCode := 200, Body := Json.str r } := by
  unfold handlers.DeleteUser
  generalize user.DeleteUser req t c = x
  rcases x with ⟨_ | _, _⟩ <;> rfl

/-- C7, as stated, fails: on `GET` with `email=not-an-email` the status is 400
although no operation of the record service ran (no store call was made, so
none returned an error), and the body is not an object with the field `error`. -/
theorem handler_400_without_operation_error :
    handler scenarioDeps
        { HTTPMethod := "GET", QueryStringParameters := [("email", "not-an-email")], Body := "" }
        { table := [], faults := [], log := [] } =
      ({ StatusCode := 400, Body := Json.str "invalid email" },
        { table := [], faults := [], log := [] }) ∧
    ∀ m, Json.str "invalid email" ≠ ErrorBody m := by
  refine ⟨by decide, ?_⟩
  intro m h
  exact Json.noConfusion h

/-- C7, amended. The status of the response is 200, 201, 400 or 405. It is 405
exactly for an unmapped method; 201 exactly when the method is `POST` and
`user.CreateUser` returned no error; 200 exactly when the method is `PUT` or
`DELETE`, or `GET` with an `email` parameter that is empty or passes the
validity check, and the operation returned no error; 400 exactly when the
operation returned an error or the method is `GET` and the `email` parameter
is non-empty and fails the validity check. Whenever the operation returned an
error, the body is the object whose field `error` is that error's message. -/
theorem handler_status (deps : Deps) (req : APIGatewayProxyRequest) (c : Client) :
    ((handler deps req c).1.StatusCode = 200 ∨ (handler deps req c).1.StatusCode = 201 ∨
      (handler deps req c).1.StatusCode = 400 ∨ (handler deps req c).1.StatusCode = 405) ∧
    ((handler deps req c).1.StatusCode = 405 ↔
      req.HTTPMethod ∉ ["GET", "POST", "PUT", "DELETE"]) ∧
    ((handler deps req c).1.StatusCode = 201 ↔
      req.HTTPMethod = "POST" ∧ ∃ u, (user.CreateUser deps req TABLENAME c).1 = Except.ok u) ∧
    ((handler deps req c).1.StatusCode = 200 ↔
      (req.HTTPMethod = "PUT" ∧ ∃ u, (user.UpdateUser deps req TABLENAME c).1 = Except.ok u) ∨
      (req.HTTPMethod = "DELETE" ∧ ∃ e, (user.DeleteUser req TABLENAME c).1 = Except.ok e) ∨
      (req.HTTPMethod = "GET" ∧ queryParam req.QueryStringParameters "email" = "" ∧
        ∃ us, (user.FetchUsers TABLENAME c).1 = Except.ok us) ∨
      (req.HTTPMethod = "GET" ∧ queryParam req.QueryStringParameters "email" ≠ "" ∧
        deps.IsEmailValid (queryParam req.QueryStringParameters "email") = true ∧
        ∃ u, (user.FetchUser (queryParam req.QueryStringParameters "email") TABLENAME c).1
          = Except.ok u)) ∧
    ((handler deps req c).1.StatusCode = 400 ↔
      (req.HTTPMethod = "POST" ∧
        ∃ m, (user.CreateUser deps req TABLENAME c).1 = Except.error m) ∨
      (req.HTTPMethod = "PUT" ∧
        ∃ m, (user.UpdateUser deps req TABLENAME c).1 = Except.error m) ∨
      (req.HTTPMethod = "DELETE" ∧
        ∃ m, (user.DeleteUser req TABLENAME c).1 = Except.error m) ∨
      (req.HTTPMethod = "GET" ∧ queryParam req.QueryStringParameters "email" = "" ∧
        ∃ m, (user.FetchUsers TABLENAME c).1 = Except.error m) ∨
      (req.HTTPMethod = "GET" ∧ queryParam req.QueryStringParameters "email" ≠ "" ∧
        deps.IsEmailValid (queryParam req.QueryStringParameters "email") = true ∧
        ∃ m, (user.FetchUser (queryParam req.QueryStringParameters "email") TABLENAME c).1
          = Except.error m) ∨
      (req.HTTPMethod = "GET" ∧ queryParam req.QueryStringParameters "email" ≠ "" ∧
        deps.IsEmailValid (queryParam req.QueryStringParameters "email") = false)) ∧
    (∀ m,
      ((req.HTTPMethod = "POST" ∧
          (user.CreateUser deps req TABLENAME c).1 = Except.error m) ∨
        (req.HTTPMethod = "PUT" ∧
          (user.UpdateUser deps req TABLENAME c).1 = Except.error m) ∨
        (req.HTTPMethod = "DELETE" ∧
          (user.DeleteUser req TABLENAME c).1 = Except.error m) ∨
        (req.HTTPMethod = "GET" ∧ queryParam req.QueryStringParameters "email" = "" ∧
          (user.FetchUsers TABLENAME c).1 = Except.error m) ∨
        (req.HTTPMethod = "GET" ∧ queryParam req.QueryStringParameters "email" ≠ "" ∧
          deps.IsEmailValid (queryParam req.QueryStringParameters "email") = true ∧
          (user.FetchUser (queryParam req.QueryStringParameters "email") TABLENAME c).1
            = Except.error m)) →
      (handler deps req c).1 = { StatusCode := 400, Body := Json.obj [("error", m)] }) := by
  by_cases hG : req.HTTPMethod = "GET"
  · have hh : (handler deps req c).1 = (handlers.GetUser deps req TABLENAME c).1 := by
      simp [handler, hG]
    rw [hh, handlers_GetUser_fst]
    by_cases hq : queryParam req.QueryStringParameters "email" = ""
    · rcases hres : (user.FetchUsers TABLENAME c).1 with e | us <;>
        simp [hG, hq, hres, ErrorBody]
    · cases hv : deps.IsEmailValid (queryParam req.QueryStringParameters "email")
      · simp [hG, hq, hv]
      · rcases hres : (user.FetchUser (queryParam req.QueryStringParameters "email")
            TABLENAME c).1 with e | u <;>
          simp [hG, hq, hv, hres, ErrorBody]
  · by_cases hP : req.HTTPMethod = "POST"
    · have hh : (handler deps req c).1 = (handlers.CreateUser deps req TABLENAME c).1 := by
        simp [handler, hP]
      rw [hh, handlers_CreateUser_fst]
      rcases hres : (user.CreateUser deps req TABLENAME c).1 with e | u <;>
        simp [hP, hres, ErrorBody]
    · by_cases hU : req.HTTPMethod = "PUT"
      · have hh : (handler deps req c).1 = (handlers.UpdateUser deps req TABLENAME c).1 := by
          simp [handler, hU]
        rw [hh, handlers_UpdateUser_fst]
        rcases hres : (user.UpdateUser deps req TABLENAME c).1 with e | u <;>
          simp [hU, hres, ErrorBody]
      · by_cases hD : req.HTTPMethod = "DELETE"
        · have hh : (handler deps req c).1 = (handlers.DeleteUser req TABLENAME c).1 := by
            simp [handler, hD]
          rw [hh, handlers_DeleteUser_fst]
          rcases hres : (user.DeleteUser req TABLENAME c).1 with e | u <;>
            simp [hD, hres, ErrorBody]
        · simp [handler, hG, hP, hU, hD, handlers.UnhandledMetod, apiResponse]


/-! ## The record invariant -/

theorem PutItem_table (c : Client) (tablename : String) (item : Item) :
    (c.PutItem tablename item).2.table = c.table ∨
    ∃ k, keyOf item = some k ∧ k ≠ "" ∧
      (c.PutItem tablename item).2.table =
        c.table.filter (fun it => decide (keyOf it ≠ some k)) ++ [item] := by
  unfold Client.PutItem
  cases hf : c.nextFails
  · cases hk : keyOf item with
    | none => left; simp [Client.tick]
    | some k =>
      by_cases h0 : k = ""
      · left; simp [h0, Client.tick]
      · right; exact ⟨k, rfl, h0, by simp [h0]⟩
  · left; simp [Client.tick]

theorem FetchUser_table (email tablename : String) (c : Client) :
    (user.FetchUser email tablename c).2.table = c.table := by
  cases hf : c.nextFails
  · rw [FetchUser_ok _ _ _ hf]; rfl
  · rw [FetchUser_fail _ _ _ hf]; rfl

theorem marshalAndPut_table (u : User) (tablename : String) (c : Client) :
    (user.marshalAndPut u tablename c).2.table = c.table ∨
    (u.Email ≠ "" ∧ (user.marshalAndPut u tablename c).2.table =
      c.table.filter (fun it => decide (keyOf it ≠ some u.Email)) ++ [encodeUser u]) := by
  by_cases hne : u.Email = ""
  · left
    cases hf : c.nextFails <;>
      simp [user.marshalAndPut, MarshalMap, Client.PutItem, keyOf_encodeUser_empty u hne,
        Client.tick, hf]
  · cases hf : c.nextFails
    · right
      rw [marshalAndPut_ok u tablename c hf hne]
      exact ⟨hne, rfl⟩
    · left
      rw [marshalAndPut_fails_with_the_store u tablename c hf]
      rfl

theorem RecordInvariant_put (deps : Deps) (t : List Item) (u : User)
    (hinv : RecordInvariant deps t) (hne : u.Email ≠ "") (hv : deps.IsEmailValid u.Email = true) :
    RecordInvariant deps
      (t.filter (fun it => decide (keyOf it ≠ some u.Email)) ++ [encodeUser u]) := by
  intro it hit
  rcases List.mem_append.mp hit with h | h
  · exact hinv it (List.mem_filter.mp h).1
  · have hit : it = encodeUser u := by simpa using h
    subst hit
    rw [decodeUser_encodeUser]
    exact ⟨hne, hv, keyOf_encodeUser u hne⟩

theorem Keyed_put (t : List Item) (u : User) (hk : Keyed t) (hne : u.Email ≠ "") :
    Keyed (t.filter (fun it => decide (keyOf it ≠ some u.Email)) ++ [encodeUser u]) := by
  intro it hit
  rcases List.mem_append.mp hit with h | h
  · exact hk it (List.mem_filter.mp h).1
  · have hit : it = encodeUser u := by simpa using h
    subst hit
    rw [keyOf_encodeUser u hne]
    intro h0
    exact hne (Option.some.inj h0)

/-- C10. The record invariant is not preserved by `UpdateUser`: when the get
of its existence check fails, the error is dropped and the record of the body
is written although its email `bad` was never validated. Before the call the
table satisfies the invariant, afterwards it does not. -/
theorem UpdateUser_breaks_record_invariant :
    RecordInvariant scenarioDeps
      [encodeUser { Email := "a@b.com", FirstName := "A", LastName := "B" }] ∧
    scenarioDeps.IsEmailValid "bad" = false ∧
    user.UpdateUser scenarioDeps
        { HTTPMethod := "PUT", QueryStringParameters := [],
          Body := "\x7b\"email\":\"bad\",\"firstname\":\"X\",\"lastname\":\"Y\"\x7d" }
        TABLENAME
        { table := [encodeUser { Email := "a@b.com", FirstName := "A", LastName := "B" }],
          faults := [true], log := [] } =
      (Except.ok { Email := "bad", FirstName := "X", LastName := "Y" },
        { table := [encodeUser { Email := "a@b.com", FirstName := "A", LastName := "B" },
                    encodeUser { Email := "bad", FirstName := "X", LastName := "Y" }],
          faults := [],
          log := [Call.GetItem TABLENAME "bad",
                  Call.PutItem TABLENAME
                    (encodeUser { Email := "bad", FirstName := "X", LastName := "Y" })] }) ∧
    ¬ RecordInvariant scenarioDeps
      [encodeUser { Email := "a@b.com", FirstName := "A", LastName := "B" },
       encodeUser { Email := "bad", FirstName := "X", LastName := "Y" }] := by
  refine ⟨by decide, by decide, rfl, by decide⟩

/-- The record invariant is preserved by `FetchUser`, `FetchUsers`,
`DeleteUser` and `CreateUser` whatever the outcomes of the store calls, and by
`UpdateUser` whenever the get of its existence check does not fail. -/
theorem RecordInvariant_preserved (deps : Deps) (req : APIGatewayProxyRequest)
    (email tablename : String) (c : Client) (hinv : RecordInvariant deps c.table) :
    RecordInvariant deps (user.FetchUser email tablename c).2.table ∧
    RecordInvariant deps (user.FetchUsers tablename c).2.table ∧
    RecordInvariant deps (user.DeleteUser req tablename c).2.table ∧
    RecordInvariant deps (user.CreateUser deps req tablename c).2.table ∧
    (c.nextFails = false →
      RecordInvariant deps (user.UpdateUser deps req tablename c).2.table) := by
  refine ⟨?_, ?_, ?_, ?_, ?_⟩
  · rw [FetchUser_table]; exact hinv
  · cases hf : c.nextFails <;>
      simpa [user.FetchUsers, Client.Scan, hf, Client.tick] using hinv
  · cases hf : c.nextFails
    · simp only [user.DeleteUser, Client.DeleteItem, hf, Client.tick]
      intro it hit
      exact hinv it (List.mem_filter.mp hit).1
    · simpa [user.DeleteUser, Client.DeleteItem, hf, Client.tick] using hinv
  · rw [CreateUser_tail]
    cases hb : deps.jsonUnmarshal req.Body with
    | none => exact hinv
    | some u =>
      cases hv : deps.IsEmailValid u.Email
      · simpa [hv] using hinv
      · simp only [hv, Bool.not_true, Bool.false_eq_true, if_false]
        have ht := FetchUser_table u.Email tablename c
        generalize user.FetchUser u.Email tablename c = x at ht
        obtain ⟨cu, c1⟩ := x
        simp only at ht ⊢
        split
        · simpa [ht] using hinv
        · rcases marshalAndPut_table u tablename c1 with h | ⟨hne, h⟩
          · rw [h, ht]; exact hinv
          · rw [h, ht]; exact RecordInvariant_put deps c.table u hinv hne hv
  · intro hf
    rw [UpdateUser_tail]
    cases hb : deps.jsonUnmarshal req.Body with
    | none => exact hinv
    | some u =>
      simp only [FetchUser_ok _ _ _ hf]
      by_cases hex : ∃ it ∈ c.table, keyOf it = some u.Email
      · obtain ⟨it0, hit0, hk0⟩ := hex
        obtain ⟨it, hfind, hkey⟩ := find_key_some c.table u.Email ⟨it0, hit0, hk0⟩
        have hmem : it ∈ c.table := List.mem_of_find?_eq_some hfind
        have hmail := decodeUser_email_of_keyOf it u.Email hkey
        obtain ⟨hne, hv, _⟩ := hinv it hmem
        rw [hmail] at hne hv
        split
        · simpa [Client.tick] using hinv
        · rcases marshalAndPut_table u tablename (c.tick (Call.GetItem tablename u.Email))
            with h | ⟨_, h⟩
          · rw [h]; exact hinv
          · rw [h]; exact RecordInvariant_put deps c.table u hinv hne hv
      · have hfind := find_key_none c.table u.Email hex
        simpa [hfind, user.foundEmpty, decodeUser_nil, Client.tick] using hinv

/-- The key schema is preserved by every operation, whatever the outcomes of
the store calls. -/
theorem Keyed_preserved (deps : Deps) (req : APIGatewayProxyRequest)
    (email tablename : String) (c : Client) (hk : Keyed c.table) :
    Keyed (user.FetchUser email tablename c).2.table ∧
    Keyed (user.FetchUsers tablename c).2.table ∧
    Keyed (user.DeleteUser req tablename c).2.table ∧
    Keyed (user.CreateUser deps req tablename c).2.table ∧
    Keyed (user.UpdateUser deps req tablename c).2.table := by
  have hput : ∀ (u : User) (c1 : Client), c1.table = c.table →
      Keyed (user.marshalAndPut u tablename c1).2.table := by
    intro u c1 ht
    rcases marshalAndPut_table u tablename c1 with h | ⟨hne, h⟩
    · rw [h, ht]; exact hk
    · rw [h, ht]; exact Keyed_put c.table u hk hne
  refine ⟨?_, ?_, ?_, ?_, ?_⟩
  · rw [FetchUser_table]; exact hk
  · cases hf : c.nextFails <;>
      simpa [user.FetchUsers, Client.Scan, hf, Client.tick] using hk
  · cases hf : c.nextFails
    · simp only [user.DeleteUser, Client.DeleteItem, hf, Client.tick]
      intro it hit
      exact hk it (List.mem_filter.mp hit).1
    · simpa [user.DeleteUser, Client.DeleteItem, hf, Client.tick] using hk
  · rw [CreateUser_tail]
    cases hb : deps.jsonUnmarshal req.Body with
    | none => exact hk
    | some u =>
      have ht := FetchUser_table u.Email tablename c
      simp only
      split
      · exact hk
      · split
        · show Keyed (user.FetchUser u.Email tablename c).2.table
          rw [ht]; exact hk
        · exact hput u _ ht
  · rw [UpdateUser_tail]
    cases hb : deps.jsonUnmarshal req.Body with
    | none => exact hk
    | some u =>
      have ht := FetchUser_table u.Email tablename c
      simp only
      split
      · show Keyed (user.FetchUser u.Email tablename c).2.table
        rw [ht]; exact hk
      · exact hput u _ ht

end GoServerless
